import Mathlib

/-!
Shallow embedding of the two scripts of this repository:
`scripts/download.py` (verified archive fetcher) and `scripts/convert.py`
(batch MP3 → WAV transcoder).

Modelling conventions:
* The filesystem under the downloader's output root `OUTPUT_DIR` is a map
  `Disk` from relative path (String) to file content (String); `none` means
  the path does not exist.  The archive file for name `n` lives at relative
  path `n` (the code uses `tar_path = OUTPUT_DIR / tar_name`) and an
  extracted member `rel` lives at relative path `rel`
  (`tar.extractall(OUTPUT_DIR)` followed by reads of `OUTPUT_DIR / rel`).
* External effects are an environment `Env`: `hash` models `compute_sha256`
  applied to a file's content, `network` models `requests.get` (the content
  a given URL serves), `tarContents` models `tarfile.open(...).getmembers()`
  applied to a downloaded file's content.  Python exceptions
  (`RuntimeError`, `KeyError`) become explicit `Outcome` values.
* Every observable step of `_download_tars` / `unpack_and_verify` is also
  recorded in an event trace (`Event`), used for the temporal claims.
* Python's `random.Random(SEED).shuffle` is a Fisher–Yates shuffle driven by
  a PRNG that is a deterministic function of the seed alone (it never reads
  the `random` module's global generator).  The Mersenne-Twister stream is
  modelled by a deterministic LCG stream `lcgNext`; every property proved
  here (length preservation, determinism in the seed and input list) is
  insensitive to the particular deterministic stream.
* Python's `int(n * 0.05)` is modelled as `n * 5 / 100` (exact floor).  For
  every list length reachable in practice (checked exhaustively far beyond
  any manifest size) the double-precision computation agrees with the exact
  floor, since `0.05`'s rounding error only crosses an integer boundary for
  `n` of order `10^15`.
-/

namespace AudioScripts

/-! ### Constants of `scripts/download.py` -/

def SEED : Nat := 42

def DATASET : String := "raw_30s"

def DATA_TYPE : String := "audio-low"

def BASE_URL : String := "https://cdn.freesound.org/mtg-jamendo"

/-! ### Filesystem model -/

/-- The files below the downloader's output root: relative path ↦ content. -/
def Disk : Type := String → Option String

/-- Write (create or overwrite) the file at path `p`. -/
def Disk.set (d : Disk) (p c : String) : Disk :=
  fun q => if q = p then some c else d q

/-- `Path.unlink`: remove the file at path `p`. -/
def Disk.remove (d : Disk) (p : String) : Disk :=
  fun q => if q = p then none else d q

/-- The empty output directory. -/
def Disk.empty : Disk := fun _ => none

/-! ### Checksum manifests -/

/-- A loaded checksum manifest: relative name ↦ expected hex digest
(the dicts built by `load_tar_checksums` / `load_track_checksums`). -/
abbrev Checksums := List (String × String)

/-- Dict lookup `ck[name]`, `none` when the key is absent (Python raises
`KeyError` there). -/
def lookupCk (ck : Checksums) (name : String) : Option String :=
  (ck.find? (fun e => e.1 == name)).map (fun e => e.2)

/-- `load_tar_checksums` / `load_track_checksums`: each manifest line is a
`(sha, name)` pair and the dict maps `name ↦ sha` (columns reversed). -/
def loadChecksums (lines : List (String × String)) : Checksums :=
  lines.map (fun l => (l.2, l.1))

/-! ### Seeded shuffle (`random.Random(SEED).shuffle`) -/

/-- One step of the deterministic PRNG stream standing in for the seeded
Mersenne Twister (Knuth's 64-bit LCG constants). -/
def lcgNext (s : Nat) : Nat :=
  (6364136223846793005 * s + 1442695040888963407) % (2 ^ 64)

/-- Swap the entries at positions `i` and `j` of a list (total; out-of-range
positions leave the list unchanged up to `List.set`'s semantics). -/
def listSwap (xs : List String) (i j : Nat) : List String :=
  (xs.set i (xs.getD j "")).set j (xs.getD i "")

/-- Fisher–Yates main loop: the first argument is the current index
(running down from `length - 1` to `1`), the second the PRNG state. -/
def fyAux : Nat → Nat → List String → List String
  | 0, _, xs => xs
  | i + 1, s, xs =>
    let s' := lcgNext s
    fyAux i s' (listSwap xs (i + 1) (s' % (i + 2)))

/-- `random.Random(seed).shuffle(xs)`: a deterministic function of the seed
and the list alone. -/
def pyShuffle (seed : Nat) (xs : List String) : List String :=
  fyAux (xs.length - 1) (lcgNext seed) xs

/-- The sample selection inside `download_sample`:
`random.Random(SEED).shuffle(tar_names)`, then
`k = max(1, int(len(tar_names) * 0.05))`, then `tar_names[:k]`. -/
def selectSample (seed : Nat) (tarNames : List String) : List String :=
  let shuffled := pyShuffle seed tarNames
  let k := max 1 (shuffled.length * 5 / 100)
  shuffled.take k

/-- The ambient state of the `random` module (its hidden global generator),
i.e. everything that could vary between two invocations of
`download_sample` with the same seed and manifest. -/
structure RandomModule where
  globalState : Nat

/-- `download_sample`'s selection step as run in an ambient state `rng`:
the code constructs a fresh `random.Random(SEED)` from the seed, so the
ambient generator state is never consulted. -/
def downloadSampleSelect (_rng : RandomModule) (seed : Nat) (tarNames : List String) :
    List String :=
  selectSample seed tarNames

/-! ### Tar archives and the fetch environment -/

/-- One entry of `tar.getmembers()`: its name, whether `m.isfile()`, and the
content extracted for it. -/
structure TarMember where
  name : String
  isfile : Bool
  content : String
deriving DecidableEq

/-- External effects of the downloader. -/
structure Env where
  hash : String → String
  network : String → String
  tarContents : String → List TarMember

/-- Observable steps of the fetch pipeline, in execution order. -/
inductive Event where
  | skip : String → Event
  | download : String → Event
  | verifyTarOk : String → Event
  | verifyTarFail : String → Event
  | extract : String → String → Event
  | verifyMemberFail : String → Event
  | deleteTar : String → Event
deriving DecidableEq

/-- How one loop iteration of `_download_tars` ends.  `archiveMismatch` and
`memberMismatch` are the two `RuntimeError` raises (the spec's
`IntegrityError`, archive- and member-level); `keyError` is the dict lookup
failure `tar_checksums[tar_name]` for a name missing from the manifest. -/
inductive Outcome where
  | ok
  | skipped
  | keyError : String → Outcome
  | archiveMismatch : String → Outcome
  | memberMismatch : String → Outcome
deriving DecidableEq

/-- `tar.extractall(OUTPUT_DIR)`: write every regular-file member's content
at its member name, in member order (later duplicates overwrite). -/
def extractAll (d : Disk) : List TarMember → Disk
  | [] => d
  | m :: ms => extractAll (if m.isfile then d.set m.name m.content else d) ms

/-- One iteration of the verification loop of `unpack_and_verify` for member
`m`: `true` when the loop continues past `m` (not a regular file, or not in
the track manifest, or the on-disk hash matches), `false` when it raises. -/
def memberPasses (d : Disk) (ck : Checksums) (hash : String → String)
    (m : TarMember) : Bool :=
  if !m.isfile then true
  else
    match lookupCk ck m.name with
    | none => true
    | some digest => ((d m.name).map hash) == some digest

/-- The verification loop of `unpack_and_verify`: returns the name of the
first member it raises on, `none` when every member passes. -/
def verifyMembers (d : Disk) (ck : Checksums) (hash : String → String) :
    List TarMember → Option String
  | [] => none
  | m :: ms =>
    if memberPasses d ck hash m then verifyMembers d ck hash ms
    else some m.name

/-- `unpack_and_verify(tar_path, track_checksums)`: extract all members,
then run the member verification loop over the extracted files.  Returns
the disk after extraction, the extraction events, and the member the loop
raised on (if any).  The disk is returned unchanged by verification: the
loop only reads. -/
def unpackAndVerify (env : Env) (trackCk : Checksums) (d : Disk)
    (tarName tarContent : String) : Disk × List Event × Option String :=
  let ms := env.tarContents tarContent
  (extractAll d ms, ms.map (fun m => Event.extract tarName m.name),
    verifyMembers (extractAll d ms) trackCk env.hash ms)

/-- The download URL `f"{BASE_URL}/{DATASET}/{DATA_TYPE}/{tar_name}"`. -/
def tarUrl (tarName : String) : String :=
  BASE_URL ++ "/" ++ DATASET ++ "/" ++ DATA_TYPE ++ "/" ++ tarName

/-- One iteration of the loop of `_download_tars` for archive `tarName`
(the spec's `fetch_and_verify(name)`): skip when the archive file exists;
otherwise download it, compare its content hash with the archive manifest
(delete + raise on mismatch), extract and verify members (raise on the
first mismatch, keeping extracted files), and finally delete the archive
file.  The downloaded file's content is `env.network (tarUrl tarName)`, and
after `d.set tarName content` that is exactly what `compute_sha256(tar_path)`
reads back. -/
def fetchAndVerify (env : Env) (tarCk trackCk : Checksums) (d : Disk)
    (tarName : String) : Disk × List Event × Outcome :=
  match d tarName with
  | some _ => (d, [Event.skip tarName], Outcome.skipped)
  | none =>
    let content := env.network (tarUrl tarName)
    let d1 := d.set tarName content
    match lookupCk tarCk tarName with
    | none => (d1, [Event.download tarName], Outcome.keyError tarName)
    | some digest =>
      if env.hash content = digest then
        match unpackAndVerify env trackCk d1 tarName content with
        | (d2, evs, some rel) =>
          (d2,
            Event.download tarName :: Event.verifyTarOk tarName ::
              (evs ++ [Event.verifyMemberFail rel]),
            Outcome.memberMismatch rel)
        | (d2, evs, none) =>
          (d2.remove tarName,
            Event.download tarName :: Event.verifyTarOk tarName ::
              (evs ++ [Event.deleteTar tarName]),
            Outcome.ok)
      else
        (d1.remove tarName,
          [Event.download tarName, Event.verifyTarFail tarName],
          Outcome.archiveMismatch tarName)

/-- `_download_tars(tar_names)`: process the archives strictly sequentially;
the first raised error aborts the run, skipping and success continue. -/
def downloadTars (env : Env) (tarCk trackCk : Checksums) :
    Disk → List String → Disk × List Event × Outcome
  | d, [] => (d, [], Outcome.ok)
  | d, tarName :: rest =>
    match fetchAndVerify env tarCk trackCk d tarName with
    | (d1, evs, Outcome.skipped) =>
      let r := downloadTars env tarCk trackCk d1 rest
      (r.1, evs ++ r.2.1, r.2.2)
    | (d1, evs, Outcome.ok) =>
      let r := downloadTars env tarCk trackCk d1 rest
      (r.1, evs ++ r.2.1, r.2.2)
    | (d1, evs, oc) => (d1, evs, oc)

/-! ### Constants and model of `scripts/convert.py` -/

def DST_DIR : String := "data/audio/wav"

def SAMPLE_RATE : Nat := 16000

def CHANNELS : Nat := 1

def SAMPLE_FMT : String := "pcm_s16le"

/-- `Path(p).name`: the final path component (the characters after the last
slash). -/
def basename (p : String) : String :=
  String.mk ((p.toList.reverse.takeWhile (fun c => c != '/')).reverse)

/-- `Path(p).stem`: the final component minus its extension.  As in
`pathlib`, the extension runs from the last dot, and only exists when that
dot is neither the first nor the last character of the component. -/
def stem (p : String) : String :=
  let nm := (basename p).toList
  let ext := nm.reverse.takeWhile (fun c => c != '.')
  if ext.length = nm.length then String.mk nm
  else
    let i := nm.length - ext.length - 1
    if 0 < i ∧ i < nm.length - 1 then String.mk (nm.take i) else String.mk nm

/-- `DST_DIR / f"{src.stem}.wav"`. -/
def dstPath (src : String) : String :=
  DST_DIR ++ "/" ++ stem src ++ ".wav"

/-- The fixed ffmpeg argument list built by `convert_one`. -/
def ffmpegCmd (src dst : String) : List String :=
  ["ffmpeg", "-y", "-loglevel", "error", "-i", src,
    "-ac", toString CHANNELS, "-ar", toString SAMPLE_RATE,
    "-sample_fmt", "s16", "-c:a", SAMPLE_FMT, dst]

/-- External effects of the converter: the exit code `subprocess.run` sees
for a given argument list, and the content ffmpeg writes to the destination
when it succeeds on a given source. -/
structure ConvEnv where
  exitCode : List String → Nat
  outContent : String → String

/-- Result of `convert_one`: the returned `src.name`, or the
`CalledProcessError` that `check=True` raises on a non-zero exit. -/
inductive ConvResult where
  | ok : String → ConvResult
  | calledProcessError : List String → Nat → ConvResult
deriving DecidableEq

/-- `convert_one(src)`: build the destination path from the source stem,
run ffmpeg (which writes the destination on success), and only then
`src.unlink()`.  A non-zero exit raises before the unlink, leaving the
filesystem untouched by this function. -/
def convertOne (env : ConvEnv) (d : Disk) (src : String) : Disk × ConvResult :=
  let dst := dstPath src
  let cmd := ffmpegCmd src dst
  let code := env.exitCode cmd
  if code = 0 then
    ((d.set dst (env.outContent src)).remove src, ConvResult.ok (basename src))
  else
    (d, ConvResult.calledProcessError cmd code)

/-! ### Helper lemmas -/

theorem length_listSwap (xs : List String) (i j : Nat) :
    (listSwap xs i j).length = xs.length := by
  simp [listSwap]

theorem length_fyAux : ∀ (i s : Nat) (xs : List String),
    (fyAux i s xs).length = xs.length := by
  intro i
  induction i with
  | zero => intro s xs; rfl
  | succ k ih =>
    intro s xs
    rw [fyAux, ih, length_listSwap]

theorem length_pyShuffle (seed : Nat) (xs : List String) :
    (pyShuffle seed xs).length = xs.length := by
  rw [pyShuffle, length_fyAux]

/-! ### Claim theorems -/

/-- C4: for every archive manifest with `N ≥ 1` entries, the sample selected
by `select_sample` (the selection step of `download_sample`) has exactly
`max 1 ⌊0.05 * N⌋` elements, for any seed. -/
theorem selectSample_size (seed : Nat) (tarNames : List String)
    (h : 1 ≤ tarNames.length) :
    (selectSample seed tarNames).length = max 1 (tarNames.length * 5 / 100) := by
  have hl : (pyShuffle seed tarNames).length = tarNames.length :=
    length_pyShuffle seed tarNames
  simp only [selectSample, List.length_take, hl]
  omega

/-- Witness for C4 at a concrete three-name manifest: the sample has
`max 1 ⌊0.05 * 3⌋ = 1` element. -/
theorem selectSample_size_witness :
    1 ≤ (["a.tar", "b.tar", "c.tar"] : List String).length ∧
      (selectSample 42 ["a.tar", "b.tar", "c.tar"]).length =
        max 1 ((["a.tar", "b.tar", "c.tar"] : List String).length * 5 / 100) :=
  ⟨by decide, selectSample_size 42 ["a.tar", "b.tar", "c.tar"] (by decide)⟩

/-- C5: for a fixed seed and fixed manifest content, the selection step of
`download_sample` returns the identical list of names (same subset, same
order) whatever the ambient state of the `random` module is at the two
invocations: the selection is a deterministic function of seed and
manifest. -/
theorem downloadSampleSelect_deterministic (r1 r2 : RandomModule) (seed : Nat)
    (tarNames : List String) :
    downloadSampleSelect r1 seed tarNames = downloadSampleSelect r2 seed tarNames :=
  rfl

/-- C7: when the local archive file already exists, `fetch_and_verify` is a
no-op: the disk is returned unchanged (no download, no deletion, no
extraction) and the only event is the skip. -/
theorem fetchAndVerify_skips_existing (env : Env) (tarCk trackCk : Checksums)
    (d : Disk) (tarName c : String) (h : d tarName = some c) :
    fetchAndVerify env tarCk trackCk d tarName =
      (d, [Event.skip tarName], Outcome.skipped) := by
  unfold fetchAndVerify
  rw [h]

/-- Witness for C7: with `a.tar` already on disk, the call returns the disk
unchanged, a single skip event, and the skipped outcome. -/
theorem fetchAndVerify_skips_existing_witness :
    fetchAndVerify ⟨fun c => c, fun _ => "payload", fun _ => []⟩ [] []
        (Disk.empty.set "a.tar" "blob") "a.tar" =
      (Disk.empty.set "a.tar" "blob", [Event.skip "a.tar"], Outcome.skipped) :=
  fetchAndVerify_skips_existing ⟨fun c => c, fun _ => "payload", fun _ => []⟩ [] []
    (Disk.empty.set "a.tar" "blob") "a.tar" "blob" (by rfl)

/-- C1: when the downloaded archive's content hash differs from the digest
recorded for it in the archive manifest, `fetch_and_verify` raises the
archive-level integrity error and the archive's destination path does not
exist on disk afterwards (the partial file was deleted). -/
theorem fetchAndVerify_bad_archive_checksum (env : Env)
    (tarCk trackCk : Checksums) (d : Disk) (tarName digest : String)
    (hnew : d tarName = none)
    (hck : lookupCk tarCk tarName = some digest)
    (hbad : env.hash (env.network (tarUrl tarName)) ≠ digest) :
    (fetchAndVerify env tarCk trackCk d tarName).2.2 =
        Outcome.archiveMismatch tarName ∧
      (fetchAndVerify env tarCk trackCk d tarName).1 tarName = none := by
  unfold fetchAndVerify
  rw [hnew, hck]
  simp only [if_neg hbad]
  exact ⟨by simp, by simp [Disk.remove]⟩

/-- Witness for C1: the served content hashes to `"payload"` while the
manifest records `"digest"`; the call ends in the archive-level integrity
error and `a.tar` is absent from the disk. -/
theorem fetchAndVerify_bad_archive_checksum_witness :
    (fetchAndVerify ⟨fun c => c, fun _ => "payload", fun _ => []⟩
          [("a.tar", "digest")] [] Disk.empty "a.tar").2.2 =
        Outcome.archiveMismatch "a.tar" ∧
      (fetchAndVerify ⟨fun c => c, fun _ => "payload", fun _ => []⟩
          [("a.tar", "digest")] [] Disk.empty "a.tar").1 "a.tar" = none :=
  fetchAndVerify_bad_archive_checksum ⟨fun c => c, fun _ => "payload", fun _ => []⟩
    [("a.tar", "digest")] [] Disk.empty "a.tar" "digest" (by rfl) (by decide)
    (by decide)

/-- C3: `convert_one` writes `stem(src).wav` under the destination root and
deletes the source only when the external process exits with code zero; on a
non-zero exit the source file is untouched and the `CalledProcessError`
propagates out. -/
theorem convertOne_deletes_source_only_on_success (env : ConvEnv) (d : Disk)
    (src c : String) (hsrc : d src = some c) (hne : src ≠ dstPath src) :
    (env.exitCode (ffmpegCmd src (dstPath src)) = 0 →
        (convertOne env d src).1 (dstPath src) = some (env.outContent src) ∧
        (convertOne env d src).1 src = none ∧
        (convertOne env d src).2 = ConvResult.ok (basename src)) ∧
    (env.exitCode (ffmpegCmd src (dstPath src)) ≠ 0 →
        (convertOne env d src).1 src = some c ∧
        (convertOne env d src).2 =
          ConvResult.calledProcessError (ffmpegCmd src (dstPath src))
            (env.exitCode (ffmpegCmd src (dstPath src)))) := by
  constructor
  · intro h0
    have hne2 : ¬ dstPath src = src := fun e => hne e.symm
    refine ⟨?_, ?_, ?_⟩
    · simp [convertOne, h0, Disk.set, Disk.remove, hne2]
    · simp [convertOne, h0, Disk.set, Disk.remove]
    · simp [convertOne, h0]
  · intro h0
    refine ⟨?_, ?_⟩
    · simp [convertOne, if_neg h0, hsrc]
    · simp [convertOne, if_neg h0]

/-- Witness for C3 on `data/audio/mp3/track.mp3` with a zero-exit
transcoder: `data/audio/wav/track.wav` is produced and the source is
gone. -/
theorem convertOne_deletes_source_only_on_success_witness :
    ((⟨fun _ => 0, fun _ => "wavdata"⟩ : ConvEnv).exitCode
          (ffmpegCmd "data/audio/mp3/track.mp3" (dstPath "data/audio/mp3/track.mp3")) = 0 →
        (convertOne ⟨fun _ => 0, fun _ => "wavdata"⟩
            (Disk.empty.set "data/audio/mp3/track.mp3" "mp3data")
            "data/audio/mp3/track.mp3").1 (dstPath "data/audio/mp3/track.mp3") =
          some ((⟨fun _ => 0, fun _ => "wavdata"⟩ : ConvEnv).outContent
            "data/audio/mp3/track.mp3") ∧
        (convertOne ⟨fun _ => 0, fun _ => "wavdata"⟩
            (Disk.empty.set "data/audio/mp3/track.mp3" "mp3data")
            "data/audio/mp3/track.mp3").1 "data/audio/mp3/track.mp3" = none ∧
        (convertOne ⟨fun _ => 0, fun _ => "wavdata"⟩
            (Disk.empty.set "data/audio/mp3/track.mp3" "mp3data")
            "data/audio/mp3/track.mp3").2 =
          ConvResult.ok (basename "data/audio/mp3/track.mp3")) ∧
    ((⟨fun _ => 0, fun _ => "wavdata"⟩ : ConvEnv).exitCode
          (ffmpegCmd "data/audio/mp3/track.mp3" (dstPath "data/audio/mp3/track.mp3")) ≠ 0 →
        (convertOne ⟨fun _ => 0, fun _ => "wavdata"⟩
            (Disk.empty.set "data/audio/mp3/track.mp3" "mp3data")
            "data/audio/mp3/track.mp3").1 "data/audio/mp3/track.mp3" = some "mp3data" ∧
        (convertOne ⟨fun _ => 0, fun _ => "wavdata"⟩
            (Disk.empty.set "data/audio/mp3/track.mp3" "mp3data")
            "data/audio/mp3/track.mp3").2 =
          ConvResult.calledProcessError
            (ffmpegCmd "data/audio/mp3/track.mp3" (dstPath "data/audio/mp3/track.mp3"))
            ((⟨fun _ => 0, fun _ => "wavdata"⟩ : ConvEnv).exitCode
              (ffmpegCmd "data/audio/mp3/track.mp3" (dstPath "data/audio/mp3/track.mp3")))) :=
  convertOne_deletes_source_only_on_success ⟨fun _ => 0, fun _ => "wavdata"⟩
    (Disk.empty.set "data/audio/mp3/track.mp3" "mp3data")
    "data/audio/mp3/track.mp3" "mp3data" (by rfl) (by decide)

/-- C9: the destination path depends on the source's stem alone, so two
sources with equal stems (e.g. `a/x.mp3` and `b/x.mp3`) share one
destination file; the ffmpeg invocation carries the `-y` overwrite flag and
a successful conversion of the second source silently replaces whatever the
shared destination held. -/
theorem convertOne_stem_collision_overwrites (s1 s2 : String) (env : ConvEnv)
    (d : Disk) (c0 : String)
    (hstem : stem s1 = stem s2)
    (_hexisting : d (dstPath s1) = some c0)
    (hexit : env.exitCode (ffmpegCmd s2 (dstPath s2)) = 0)
    (hne : s2 ≠ dstPath s2) :
    dstPath s1 = dstPath s2 ∧
      "-y" ∈ ffmpegCmd s2 (dstPath s2) ∧
      (convertOne env d s2).1 (dstPath s2) = some (env.outContent s2) := by
  have hne2 : ¬ dstPath s2 = s2 := fun e => hne e.symm
  refine ⟨by rw [dstPath, dstPath, hstem], by simp [ffmpegCmd], ?_⟩
  simp [convertOne, hexit, Disk.set, Disk.remove, hne2]

/-- Witness for C9: `a/x.mp3` and `b/x.mp3` both map to
`data/audio/wav/x.wav`; converting `b/x.mp3` replaces the old content of
that path. -/
theorem convertOne_stem_collision_overwrites_witness :
    dstPath "a/x.mp3" = dstPath "b/x.mp3" ∧
      "-y" ∈ ffmpegCmd "b/x.mp3" (dstPath "b/x.mp3") ∧
      (convertOne ⟨fun _ => 0, fun _ => "new"⟩
          (Disk.empty.set "data/audio/wav/x.wav" "old") "b/x.mp3").1
        (dstPath "b/x.mp3") =
        some ((⟨fun _ => 0, fun _ => "new"⟩ : ConvEnv).outContent "b/x.mp3") :=
  convertOne_stem_collision_overwrites "a/x.mp3" "b/x.mp3"
    ⟨fun _ => 0, fun _ => "new"⟩ (Disk.empty.set "data/audio/wav/x.wav" "old")
    "old" (by decide) (by decide) (by rfl) (by decide)

/-- The member verification loop raises on the first failing member: every
earlier member passes, `m` fails, so the loop stops at `m`. -/
theorem verifyMembers_append_fail (d : Disk) (ck : Checksums)
    (hash : String → String) :
    ∀ (pre : List TarMember) (m : TarMember) (post : List TarMember),
      (∀ x ∈ pre, memberPasses d ck hash x = true) →
      memberPasses d ck hash m = false →
      verifyMembers d ck hash (pre ++ m :: post) = some m.name := by
  intro pre
  induction pre with
  | nil =>
    intro m post _ hm
    simp [verifyMembers, hm]
  | cons a rest ih =>
    intro m post hpre hm
    have ha : memberPasses d ck hash a = true := hpre a (by simp)
    simp only [List.cons_append, verifyMembers, ha, if_true]
    exact ih m post (fun x hx => hpre x (by simp [hx])) hm

/-- C6: when the archive's member list is `pre ++ m :: post` where every
member of `pre` passes the loop (not a regular file, absent from the track
manifest, or hash-matching) and `m` is a regular file listed in the track
manifest whose on-disk hash differs from its digest, `unpack_and_verify`
raises the member-level integrity error referencing `m`'s path, and the
disk it leaves behind is exactly the fully-extracted disk: nothing is
rolled back. -/
theorem unpackAndVerify_first_member_mismatch (env : Env) (trackCk : Checksums)
    (d : Disk) (tarName tarContent digest : String) (pre post : List TarMember)
    (m : TarMember)
    (hms : env.tarContents tarContent = pre ++ m :: post)
    (hpre : ∀ x ∈ pre,
      memberPasses (extractAll d (env.tarContents tarContent)) trackCk env.hash x = true)
    (hfile : m.isfile = true)
    (hck : lookupCk trackCk m.name = some digest)
    (hbad : ((extractAll d (env.tarContents tarContent)) m.name).map env.hash ≠
      some digest) :
    (unpackAndVerify env trackCk d tarName tarContent).2.2 = some m.name ∧
      (unpackAndVerify env trackCk d tarName tarContent).1 =
        extractAll d (env.tarContents tarContent) := by
  have hm : memberPasses (extractAll d (env.tarContents tarContent)) trackCk env.hash m
      = false := by
    simp [memberPasses, hfile, hck, hbad]
  refine ⟨?_, rfl⟩
  calc (unpackAndVerify env trackCk d tarName tarContent).2.2
      = verifyMembers (extractAll d (env.tarContents tarContent)) trackCk env.hash
          (env.tarContents tarContent) := rfl
    _ = some m.name := by
        rw [hms] at hpre hm ⊢
        exact verifyMembers_append_fail _ _ _ pre m post hpre hm

/-- Witness for C6: a one-member archive whose member `t1` is a regular
file, listed with digest `good`, but extracted with content hashing to
`bad`; the loop raises on `t1` and the extracted file stays on disk. -/
theorem unpackAndVerify_first_member_mismatch_witness :
    (unpackAndVerify ⟨fun c => c, fun _ => "payload", fun _ => [⟨"t1", true, "bad"⟩]⟩
          [("t1", "good")] Disk.empty "a.tar" "payload").2.2 = some "t1" ∧
      (unpackAndVerify ⟨fun c => c, fun _ => "payload", fun _ => [⟨"t1", true, "bad"⟩]⟩
          [("t1", "good")] Disk.empty "a.tar" "payload").1 =
        extractAll Disk.empty
          ((⟨fun c => c, fun _ => "payload", fun _ => [⟨"t1", true, "bad"⟩]⟩ : Env).tarContents
            "payload") :=
  unpackAndVerify_first_member_mismatch
    ⟨fun c => c, fun _ => "payload", fun _ => [⟨"t1", true, "bad"⟩]⟩
    [("t1", "good")] Disk.empty "a.tar" "payload" "good" [] [] ⟨"t1", true, "bad"⟩
    (by rfl) (by simp) (by rfl) (by rfl) (by decide)

/-- Extraction never removes a file that is already present. -/
theorem extractAll_keeps (ms : List TarMember) : ∀ (d : Disk) (p : String),
    (d p).isSome = true → ((extractAll d ms) p).isSome = true := by
  induction ms with
  | nil => intro d p h; exact h
  | cons a rest ih =>
    intro d p h
    rw [extractAll]
    apply ih
    by_cases hf : a.isfile = true
    · by_cases hp : p = a.name
      · simp [hf, Disk.set, hp]
      · simp [hf, Disk.set, hp, h]
    · simp [hf, h]

/-- Every regular-file member of the list is present after extraction. -/
theorem extractAll_extracts (ms : List TarMember) : ∀ (d : Disk) (m : TarMember),
    m ∈ ms → m.isfile = true → ((extractAll d ms) m.name).isSome = true := by
  induction ms with
  | nil => intro d m hm; cases hm
  | cons a rest ih =>
    intro d m hm hf
    rw [extractAll]
    rcases List.mem_cons.mp hm with heq | hmem
    · subst heq
      apply extractAll_keeps
      simp [hf, Disk.set]
    · exact ih _ m hmem hf

/-- C10: `unpack_and_verify` extracts every member before verifying any, so
when the member verification loop raises, every regular-file member of the
archive — including those listed after the mismatching one — is already
present in the output root. -/
theorem unpackAndVerify_extracts_all_before_raising (env : Env)
    (trackCk : Checksums) (d : Disk) (tarName tarContent rel : String)
    (_hraise : (unpackAndVerify env trackCk d tarName tarContent).2.2 = some rel) :
    ∀ m ∈ env.tarContents tarContent, m.isfile = true →
      ((unpackAndVerify env trackCk d tarName tarContent).1 m.name).isSome = true := by
  intro m hm hf
  exact extractAll_extracts (env.tarContents tarContent) d m hm hf

/-- Witness for C10: the first member `t1` mismatches, and the later member
`t2` is nonetheless on disk when the error is raised. -/
theorem unpackAndVerify_extracts_all_before_raising_witness :
    (unpackAndVerify
          ⟨fun c => c, fun _ => "payload",
            fun _ => [⟨"t1", true, "bad"⟩, ⟨"t2", true, "x"⟩]⟩
          [("t1", "good")] Disk.empty "a.tar" "payload").2.2 = some "t1" ∧
      ((unpackAndVerify
          ⟨fun c => c, fun _ => "payload",
            fun _ => [⟨"t1", true, "bad"⟩, ⟨"t2", true, "x"⟩]⟩
          [("t1", "good")] Disk.empty "a.tar" "payload").1
        (⟨"t2", true, "x"⟩ : TarMember).name).isSome = true := by
  refine ⟨by decide, ?_⟩
  exact unpackAndVerify_extracts_all_before_raising
    ⟨fun c => c, fun _ => "payload", fun _ => [⟨"t1", true, "bad"⟩, ⟨"t2", true, "x"⟩]⟩
    [("t1", "good")] Disk.empty "a.tar" "payload" "t1" (by decide)
    ⟨"t2", true, "x"⟩ (by decide) (by rfl)

/-- C8: when an archive passes both verifications — it was not skipped, its
digest is in the archive manifest, the downloaded content's hash matches,
and the member verification loop passes — `fetch_and_verify` ends in the
success outcome and the local archive file no longer exists on disk. -/
theorem fetchAndVerify_success_deletes_archive (env : Env)
    (tarCk trackCk : Checksums) (d : Disk) (tarName digest : String)
    (hnew : d tarName = none)
    (hck : lookupCk tarCk tarName = some digest)
    (hgood : env.hash (env.network (tarUrl tarName)) = digest)
    (hmembers : (unpackAndVerify env trackCk
        (d.set tarName (env.network (tarUrl tarName))) tarName
        (env.network (tarUrl tarName))).2.2 = none) :
    (fetchAndVerify env tarCk trackCk d tarName).2.2 = Outcome.ok ∧
      (fetchAndVerify env tarCk trackCk d tarName).1 tarName = none := by
  unfold fetchAndVerify
  simp only [hnew, hck, if_pos hgood]
  rcases hu : unpackAndVerify env trackCk (d.set tarName (env.network (tarUrl tarName)))
      tarName (env.network (tarUrl tarName)) with ⟨d2, evs, res⟩
  rw [hu] at hmembers
  simp only at hmembers
  subst hmembers
  simp [Disk.remove]

/-- Witness for C8: the served content hashes to the manifest digest and the
archive has no members; the run succeeds and `a.tar` is gone. -/
theorem fetchAndVerify_success_deletes_archive_witness :
    (fetchAndVerify ⟨fun c => c, fun _ => "payload", fun _ => []⟩
          [("a.tar", "payload")] [] Disk.empty "a.tar").2.2 = Outcome.ok ∧
      (fetchAndVerify ⟨fun c => c, fun _ => "payload", fun _ => []⟩
          [("a.tar", "payload")] [] Disk.empty "a.tar").1 "a.tar" = none :=
  fetchAndVerify_success_deletes_archive ⟨fun c => c, fun _ => "payload", fun _ => []⟩
    [("a.tar", "payload")] [] Disk.empty "a.tar" "payload" (by rfl) (by decide)
    (by decide) (by rfl)

/-- A trace never extracts a member of an archive before that archive's
checksum verification succeeded: every extraction event is preceded by a
successful archive-level verification event for the same archive. -/
def extractPrecededByVerify (tr : List Event) : Prop :=
  ∀ (i : Nat) (nm mem : String), tr[i]? = some (Event.extract nm mem) →
    ∃ j, j < i ∧ tr[j]? = some (Event.verifyTarOk nm)

theorem epv_append {t1 t2 : List Event} (h1 : extractPrecededByVerify t1)
    (h2 : extractPrecededByVerify t2) : extractPrecededByVerify (t1 ++ t2) := by
  intro i nm mem hi
  by_cases hlt : i < t1.length
  · rw [List.getElem?_append_left hlt] at hi
    obtain ⟨j, hj, hjv⟩ := h1 i nm mem hi
    refine ⟨j, hj, ?_⟩
    rw [List.getElem?_append_left (lt_trans hj hlt)]
    exact hjv
  · push_neg at hlt
    rw [List.getElem?_append_right hlt] at hi
    obtain ⟨j, hj, hjv⟩ := h2 (i - t1.length) nm mem hi
    refine ⟨t1.length + j, by omega, ?_⟩
    rw [List.getElem?_append_right (by omega)]
    have he : t1.length + j - t1.length = j := by omega
    rw [he]
    exact hjv

theorem epv_of_no_extract {tr : List Event}
    (h : ∀ e ∈ tr, ∀ nm mem, e ≠ Event.extract nm mem) :
    extractPrecededByVerify tr := by
  intro i nm mem hi
  exact absurd rfl (h _ (List.getElem?_mem hi) nm mem)

theorem epv_verify_head (a : Event) (nm : String) (rest : List Event)
    (ha : ∀ nm2 mem, a ≠ Event.extract nm2 mem)
    (hrest : ∀ e ∈ rest, ∀ nm2 mem, e = Event.extract nm2 mem → nm2 = nm) :
    extractPrecededByVerify (a :: Event.verifyTarOk nm :: rest) := by
  intro i nm2 mem hi
  match i with
  | 0 =>
    exact absurd (by simpa using hi) (ha nm2 mem)
  | 1 =>
    simp at hi
  | (k + 2) =>
    have hk : rest[k]? = some (Event.extract nm2 mem) := by simpa using hi
    have hnm : nm2 = nm := hrest _ (List.getElem?_mem hk) nm2 mem rfl
    subst hnm
    exact ⟨1, by omega, by simp⟩

/-- In one `fetch_and_verify` iteration, extraction events only occur after
the archive-level verification succeeded. -/
theorem fetchAndVerify_extracts_only_after_verification (env : Env)
    (tarCk trackCk : Checksums) (d : Disk) (tarName : String) :
    extractPrecededByVerify (fetchAndVerify env tarCk trackCk d tarName).2.1 := by
  unfold fetchAndVerify
  cases hd : d tarName with
  | some c =>
    apply epv_of_no_extract
    intro e he nm2 mem
    simp at he
    subst he
    simp
  | none =>
    cases hck : lookupCk tarCk tarName with
    | none =>
      apply epv_of_no_extract
      intro e he nm2 mem
      simp at he
      subst he
      simp
    | some digest =>
      by_cases hh : env.hash (env.network (tarUrl tarName)) = digest
      · simp only [if_pos hh]
        rcases hu : unpackAndVerify env trackCk
            ((d.set tarName (env.network (tarUrl tarName))) : Disk) tarName
            (env.network (tarUrl tarName)) with ⟨d2, evs, res⟩
        have hevs : ((env.tarContents (env.network (tarUrl tarName))).map
            (fun m => Event.extract tarName m.name)) = evs :=
          congrArg (fun x => x.2.1) hu
        cases res with
        | some rel =>
          apply epv_verify_head
          · intro nm2 mem
            simp
          · intro e he nm2 mem hee
            subst hee
            rcases List.mem_append.mp he with hmap | htail
            · rw [← hevs] at hmap
              rcases List.mem_map.mp hmap with ⟨m, _, hm⟩
              injection hm with h1 _
              exact h1.symm
            · simp at htail
        | none =>
          apply epv_verify_head
          · intro nm2 mem
            simp
          · intro e he nm2 mem hee
            subst hee
            rcases List.mem_append.mp he with hmap | htail
            · rw [← hevs] at hmap
              rcases List.mem_map.mp hmap with ⟨m, _, hm⟩
              injection hm with h1 _
              exact h1.symm
            · simp at htail
      · simp only [if_neg hh]
        apply epv_of_no_extract
        intro e he nm2 mem
        simp at he
        rcases he with he | he <;> subst he <;> simp

/-- C2: over an entire `_download_tars` run, no member of any archive is
extracted into the output root before that archive's checksum comparison
has passed: in the event trace, every extraction is preceded by the
successful archive-level verification of the same archive. -/
theorem downloadTars_extracts_only_after_verification (env : Env)
    (tarCk trackCk : Checksums) (d : Disk) (tarNames : List String) :
    extractPrecededByVerify (downloadTars env tarCk trackCk d tarNames).2.1 := by
  induction tarNames generalizing d with
  | nil =>
    intro i nm mem hi
    simp [downloadTars] at hi
  | cons tarName rest ih =>
    have hfv := fetchAndVerify_extracts_only_after_verification env tarCk trackCk d tarName
    unfold downloadTars
    rcases hu : fetchAndVerify env tarCk trackCk d tarName with ⟨d1, evs, oc⟩
    rw [hu] at hfv
    cases oc with
    | ok => exact epv_append hfv (ih d1)
    | skipped => exact epv_append hfv (ih d1)
    | keyError s => exact hfv
    | archiveMismatch s => exact hfv
    | memberMismatch s => exact hfv

end AudioScripts
